/-
Verification of the ExcelFilterPro coordinate / data-mapping core.

Shallow embedding of:
  * src/database/models.py      (ExcelCoordinate, FilterOperator, DataMapping)
  * src/core/data_mapping_engine.py (DataMappingEngine)
  * src/core/enhanced_excel_processor.py (_load_standard_excel column labels)

Cell values (pandas object-dtype cells) are modelled by `Value`:
null/NaN, integers, floats (modelled as exact rationals; only decimal
literals arise in the properties proved here), and strings.  Python
exceptions are modelled by `Except String`.
-/
import Mathlib

namespace ExcelFilterPro

/-- A cell value of a loaded table (pandas object-dtype cell). -/
inductive Value where
  | vNull  : Value
  | vInt   : Int → Value
  | vFloat : Rat → Value
  | vStr   : String → Value
deriving DecidableEq, Repr

open Value

/-- Python `str.strip()` at the character-list level. -/
def pyStripChars (cs : List Char) : List Char :=
  ((cs.dropWhile Char.isWhitespace).reverse.dropWhile Char.isWhitespace).reverse

/-- Python `str.strip()`. -/
def pyStrip (s : String) : String :=
  String.mk (pyStripChars s.data)

/-- Python `str.split(sep)` for a one-character separator, at the
character-list level. -/
def splitOnChar (sep : Char) : List Char → List (List Char)
  | [] => [[]]
  | c :: rest =>
      match splitOnChar sep rest with
      | [] => [[]]
      | h :: t => if c = sep then [] :: h :: t else (c :: h) :: t

/-- Python `str.startswith`. -/
def strStartsWith (s pat : String) : Bool :=
  List.isPrefixOf pat.data s.data

/-- Python `str.endswith`. -/
def strEndsWith (s pat : String) : Bool :=
  List.isSuffixOf pat.data s.data

/-- `pd.isna` on a cell: only the null/NaN cell is "na". -/
def isna : Value → Bool
  | vNull => true
  | _ => false

/-- Python `==` between a cell and a comparison value, as pandas applies it
elementwise (`column == value`).  NaN compares unequal to everything
(including itself), ints and floats compare numerically, strings compare
as strings, and cross-kind comparisons are `False`. -/
def pyEq : Value → Value → Bool
  | vNull, _ => false
  | _, vNull => false
  | vInt i, vInt j => i == j
  | vInt i, vFloat q => (i : Rat) == q
  | vFloat q, vInt i => q == (i : Rat)
  | vFloat q, vFloat r => q == r
  | vStr s, vStr t => s == t
  | _, _ => false

/-- Least `k ≤ 17` such that `q * 10^k` is integral, if any. -/
def decExp (q : Rat) : Option Nat :=
  (List.range 18).find? fun k => (q * (10 : Rat) ^ k).den == 1

/-- Render a rational the way Python `str` renders the corresponding
finite-decimal float: `202.0`, `-3.5`, `0.25`, … (floats in this model are
exact decimal rationals). -/
def ratToDecimalString (q : Rat) : String :=
  match decExp q with
  | none => toString q
  | some 0 => toString q.num ++ ".0"
  | some k =>
      let m := (q * (10 : Rat) ^ k).num
      let digits := toString m.natAbs
      let digits := if digits.length ≤ k then
          String.mk (List.replicate (k + 1 - digits.length) '0') ++ digits
        else digits
      let intPart := digits.take (digits.length - k)
      let fracPart := digits.drop (digits.length - k)
      (if q.num < 0 then "-" else "") ++ intPart ++ "." ++ fracPart

/-- Python `str(value)` applied to a comparison value. -/
def pyStr : Value → String
  | vNull => "nan"
  | vInt i => toString i
  | vFloat q => ratToDecimalString q
  | vStr s => s

/-- `column.astype(str)` applied to one cell: the NaN cell becomes the
string `"nan"`. -/
def pyStrCol : Value → String
  | vNull => "nan"
  | vInt i => toString i
  | vFloat q => ratToDecimalString q
  | vStr s => s

/-- Digits of a char list read as a natural number. -/
def digitsToNat (cs : List Char) : Nat :=
  cs.foldl (fun acc c => acc * 10 + (c.toNat - 48)) 0

/-- Python `int(s)` on a string: strip whitespace, optional sign, at least
one decimal digit (digit-group underscores are not modelled; none occur in
the inputs considered here). -/
def pyIntOfString (s : String) : Option Int :=
  let cs := pyStripChars s.data
  let (neg, digits) :=
    match cs with
    | '-' :: rest => (true, rest)
    | '+' :: rest => (false, rest)
    | rest => (false, rest)
  if digits ≠ [] ∧ digits.all Char.isDigit then
    let n := digitsToNat digits
    some (if neg then -(n : Int) else (n : Int))
  else none

/-- Python `float(s)` on a string, for decimal literals: strip whitespace,
optional sign, `digits`, `digits.digits`, `digits.` or `.digits`
(exponent / inf / nan spellings are not modelled; none occur in the inputs
considered here). -/
def pyFloatOfString (s : String) : Option Rat :=
  let cs := pyStripChars s.data
  let (neg, body) :=
    match cs with
    | '-' :: rest => (true, rest)
    | '+' :: rest => (false, rest)
    | rest => (false, rest)
  let intPart := body.takeWhile Char.isDigit
  let rest := body.dropWhile Char.isDigit
  let ok : Bool :=
    match rest with
    | [] => !intPart.isEmpty
    | '.' :: frac => (!intPart.isEmpty || !frac.isEmpty) && frac.all Char.isDigit
    | _ => false
  if ok then
    let frac := match rest with
      | '.' :: f => f
      | _ => []
    let mag : Rat := (digitsToNat intPart : Rat) +
      (digitsToNat frac : Rat) / ((10 : Rat) ^ frac.length)
    some (if neg then -mag else mag)
  else none

/-! ## ExcelCoordinate (src/database/models.py) -/

/-- `ExcelCoordinate` dataclass: column letters, 1-based row, range end,
and a `coord_type` string in {"single", "range", "column", "row"}. -/
structure ExcelCoordinate where
  column : String := ""
  row : Int := 0
  end_column : String := ""
  end_row : Int := 0
  coord_type : String := "single"
deriving DecidableEq, Repr

/-- `ExcelCoordinate.column_to_index`: base-26 positional fold
`r = r*26 + (ord(c) - ord('A') + 1)`, minus one (0-based result; the empty
string yields `-1`). -/
def column_to_index (column : String) : Int :=
  (column.data.foldl (fun r c => r * 26 + ((c.toNat : Int) - 64)) 0) - 1

/-- The letter list produced by `index_to_column`'s while loop, from the
1-based intermediate value; structurally recursive on a fuel argument
(the loop runs at most `value` iterations since `index //= 26` strictly
decreases any positive index). -/
def lettersAux : Nat → Nat → List Char
  | _, 0 => []
  | 0, _ + 1 => []
  | fuel + 1, n + 1 => lettersAux fuel (n / 26) ++ [Char.ofNat (n % 26 + 65)]

/-- The letter list of `index_to_column` from the 1-based intermediate. -/
def lettersOfSucc (v : Nat) : List Char := lettersAux v v

theorem lettersAux_zero (f : Nat) : lettersAux f 0 = [] := by
  cases f <;> rfl

theorem lettersAux_fuel :
    ∀ (f₁ n : Nat), n ≤ f₁ → ∀ f₂, n ≤ f₂ →
      lettersAux f₁ n = lettersAux f₂ n := by
  intro f₁
  induction f₁ with
  | zero =>
      intro n hn f₂ _
      have : n = 0 := Nat.le_zero.mp hn
      subst this
      rw [lettersAux_zero, lettersAux_zero]
  | succ g ih =>
      intro n hn f₂ hn₂
      match n with
      | 0 => rw [lettersAux_zero, lettersAux_zero]
      | m + 1 =>
          match f₂, hn₂ with
          | h + 1, hn₂ =>
              show lettersAux g (m / 26) ++ _ = lettersAux h (m / 26) ++ _
              rw [ih (m / 26)
                (Nat.le_trans (Nat.div_le_self m 26) (Nat.le_of_succ_le_succ hn))
                h
                (Nat.le_trans (Nat.div_le_self m 26) (Nat.le_of_succ_le_succ hn₂))]

/-- The defining recurrence of the `index_to_column` loop. -/
theorem lettersOfSucc_succ (n : Nat) :
    lettersOfSucc (n + 1) =
      lettersOfSucc (n / 26) ++ [Char.ofNat (n % 26 + 65)] := by
  show lettersAux n (n / 26) ++ _ = lettersAux (n / 26) (n / 26) ++ _
  rw [lettersAux_fuel n (n / 26) (Nat.div_le_self n 26) (n / 26) (Nat.le_refl _)]

/-- `ExcelCoordinate.index_to_column`: convert a 0-based index to column
letters (`index += 1`, then repeated `index -= 1; emit index % 26;
index //= 26`).  Negative inputs leave the loop unentered and yield `""`. -/
def index_to_column (index : Int) : String :=
  String.mk (lettersOfSucc (index + 1).toNat)

/-- Python `str.isalpha` restricted to the ASCII letters appearing in
coordinates. -/
def pyIsAlpha (s : String) : Bool :=
  s.data ≠ [] && s.data.all Char.isAlpha

/-- Python `str.isdigit` for ASCII digits. -/
def pyIsDigit (s : String) : Bool :=
  s.data ≠ [] && s.data.all Char.isDigit

/-- `ExcelCoordinate._parse_single`: split at the first digit into a
letters prefix and a row suffix; both must be non-empty, the suffix must
parse as an integer ≥ 1. -/
def parse_single (coord_str : String) : Except String ExcelCoordinate :=
  let cs := coord_str.data
  let col_part := cs.takeWhile (fun c => ¬ c.isDigit)
  let row_part := cs.dropWhile (fun c => ¬ c.isDigit)
  if col_part = [] ∨ row_part = [] then
    .error "无效的Excel坐标格式"
  else
    match pyIntOfString (String.mk row_part) with
    | none => .error "无效的行号"
    | some row =>
        if row < 1 then .error "无效的行号"
        else .ok { column := String.mk col_part, row := row,
                   coord_type := "single" }

/-- `ExcelCoordinate._parse_range`: split on `:`;  equal all-letter sides
collapse to a whole column, equal all-digit sides to a whole row, otherwise
both sides parse as single coordinates forming a range. -/
def parse_range (coord_str : String) : Except String ExcelCoordinate :=
  match (splitOnChar ':' coord_str.data).map String.mk with
  | [start_str, end_str] =>
      let start_str := pyStrip start_str
      let end_str := pyStrip end_str
      if pyIsAlpha start_str ∧ pyIsAlpha end_str ∧ start_str = end_str then
        .ok { column := start_str, coord_type := "column" }
      else if pyIsDigit start_str ∧ pyIsDigit end_str ∧ start_str = end_str then
        .ok { row := (digitsToNat start_str.data : Int), coord_type := "row" }
      else
        match parse_single start_str, parse_single end_str with
        | .ok s, .ok e =>
            .ok { column := s.column, row := s.row,
                  end_column := e.column, end_row := e.row,
                  coord_type := "range" }
        | _, _ => .error "无效的范围格式"
  | _ => .error "无效的范围格式"

/-- `ExcelCoordinate.from_string`: uppercase + trim, then dispatch on `:`,
all-letters, all-digits, or single-cell syntax. -/
def from_string (coord_str : String) : Except String ExcelCoordinate :=
  let coord_str := pyStrip (String.mk (coord_str.data.map Char.toUpper))
  if coord_str.data.contains ':' then
    parse_range coord_str
  else if pyIsAlpha coord_str then
    .ok { column := coord_str, coord_type := "column" }
  else if pyIsDigit coord_str then
    .ok { row := (digitsToNat coord_str.data : Int), coord_type := "row" }
  else
    parse_single coord_str

/-! ## Match operator evaluator (src/core/data_mapping_engine.py) -/

/-- `FilterOperator` enum. -/
inductive FilterOperator where
  | EQUALS | NOT_EQUALS | GREATER_THAN | GREATER_EQUAL
  | LESS_THAN | LESS_EQUAL | CONTAINS | NOT_CONTAINS
  | STARTS_WITH | ENDS_WITH | IS_EMPTY | IS_NOT_EMPTY
deriving DecidableEq, Repr

/-- Literal substring containment (`pat in s`).  This is *not* the model
of `.str.contains` (which is regex matching, see `reSearch` below); it is
the plain containment notion that regex search coincides with on
metacharacter-free patterns. -/
def strContains (s pat : String) : Bool :=
  decide (List.IsInfix pat.data s.data)

/-! ### Regular-expression model for `.str.contains`

pandas `.str.contains(pat)` defaults to `regex=True`: the comparison
string is compiled with `re` and matched with `re.search` against each
cell's string form.  The model below implements the regex core the
evaluator's behaviour rests on: literal characters, the `.` wildcard
(any character except a newline), and the `*`/`+`/`?` quantifiers on a
single atom.  Everything else is routed to the failure branch: for a
leading or doubled quantifier (`re.error: nothing to repeat` /
`multiple repeat`) and for the remaining metacharacters this matches the
source's `except`-handler outcome or is a conservative model boundary
(character classes, groups, alternation, anchors, counted repetition and
escapes are not modelled; no theorem below relies on such a pattern). -/

/-- One regex atom: a literal character or the `.` wildcard. -/
inductive ReAtom where
  | achar : Char → ReAtom
  | adot : ReAtom
deriving DecidableEq, Repr

/-- Quantifier attached to an atom: exactly one, `*`, `+` or `?`. -/
inductive ReQuant where
  | qone | qstar | qplus | qopt
deriving DecidableEq, Repr

/-- A pattern of the modelled subset: a sequence of quantified atoms. -/
abbrev ReSeq := List (ReAtom × ReQuant)

/-- The regex metacharacters of Python `re`. -/
def reMetachars : List Char :=
  ['.', '^', '$', '*', '+', '?', '{', '}', '[', ']', '\\', '|', '(', ')']

/-- Pattern compiler (`re.compile`) for the modelled subset; the pending
argument is the last atom read, awaiting a possible quantifier.  `none`
models `re.error` (and the conservative boundary of the subset). -/
def rePyParseAux : Option ReAtom → List Char → Option ReSeq
  | none, [] => some []
  | some a, [] => some [(a, ReQuant.qone)]
  | pending, c :: rest =>
      if c = '*' ∨ c = '+' ∨ c = '?' then
        match pending with
        | some a =>
            let q := if c = '*' then ReQuant.qstar
              else if c = '+' then ReQuant.qplus else ReQuant.qopt
            (rePyParseAux none rest).map ((a, q) :: ·)
        | none => none
      else
        let newAtom : Option ReAtom :=
          if c = '.' then some ReAtom.adot
          else if c ∈ reMetachars then none
          else some (ReAtom.achar c)
        match newAtom with
        | none => none
        | some a' =>
            match pending with
            | some a => (rePyParseAux (some a') rest).map ((a, ReQuant.qone) :: ·)
            | none => rePyParseAux (some a') rest

/-- `re.compile` on a pattern string (modelled subset). -/
def rePyParse (pattern : List Char) : Option ReSeq :=
  rePyParseAux none pattern

/-- Does an atom match one input character?  `.` matches anything but a
newline (no `DOTALL`). -/
def reAtomMatches : ReAtom → Char → Bool
  | ReAtom.achar d, c => d == c
  | ReAtom.adot, c => c != '\n'

/-- Backtracking matcher: does the pattern match some prefix of `s`?
Structurally recursive on fuel; every step either shortens the pattern or
consumes an input character, so `pattern.length + s.length + 1` fuel is
exact. -/
def reMatchHere : Nat → ReSeq → List Char → Bool
  | 0, _, _ => false
  | _ + 1, [], _ => true
  | f + 1, (a, q) :: rest, s =>
      match q with
      | ReQuant.qone =>
          match s with
          | [] => false
          | c :: s' => reAtomMatches a c && reMatchHere f rest s'
      | ReQuant.qopt =>
          reMatchHere f rest s ||
            (match s with
             | [] => false
             | c :: s' => reAtomMatches a c && reMatchHere f rest s')
      | ReQuant.qstar =>
          reMatchHere f rest s ||
            (match s with
             | [] => false
             | c :: s' => reAtomMatches a c &&
                 reMatchHere f ((a, ReQuant.qstar) :: rest) s')
      | ReQuant.qplus =>
          match s with
          | [] => false
          | c :: s' => reAtomMatches a c &&
              reMatchHere f ((a, ReQuant.qstar) :: rest) s'

/-- Match at the start of `s`, with sufficient fuel. -/
def reMatchStart (seq : ReSeq) (s : List Char) : Bool :=
  reMatchHere (seq.length + s.length + 1) seq s

/-- `re.search`: the pattern matches at some position of `s`. -/
def reSearch (seq : ReSeq) : List Char → Bool
  | [] => reMatchStart seq []
  | c :: rest => reMatchStart seq (c :: rest) || reSearch seq rest

/-- Python `float(value)` on an arbitrary value (used by the ordering
operators); fails (raises) on null and non-numeric strings. -/
def pyFloatOfValue : Value → Option Rat
  | Value.vInt i => some (i : Rat)
  | Value.vFloat q => some q
  | Value.vStr s => pyFloatOfString s
  | Value.vNull => none

/-- `pd.to_numeric(column, errors='coerce')` on one cell: numeric cells
stay, numeric strings parse, everything else becomes NaN (`none`). -/
def toNumericCoerce : Value → Option Rat
  | Value.vInt i => some (i : Rat)
  | Value.vFloat q => some q
  | Value.vStr s => pyFloatOfString s
  | Value.vNull => none

/-- A cell is "empty" for `IS_EMPTY`:
`column.isna() | (column.astype(str).str.strip() == '')`. -/
def cellIsEmpty (c : Value) : Bool :=
  isna c || (pyStripChars (pyStrCol c).data == [])

/-- Elementwise OR of two masks (`mask1 | mask2`). -/
def maskOr (a b : List Bool) : List Bool :=
  List.zipWith (· || ·) a b

/-- `DataMappingEngine._apply_match_operator`.  The outer
`try/except → all-false mask` of the source has two failure points: the
ordering operators, where `float(value)` can raise, and the regex
compilation inside `CONTAINS`/`NOT_CONTAINS`, where an invalid pattern
raises `re.error`; both are modelled by the `none` branches below. -/
def applyMatchOperator (column : List Value) (value : Value)
    (operator : FilterOperator) : List Bool :=
  match operator with
  | .EQUALS =>
      let direct := column.map (fun c => pyEq c value)
      if !direct.any id then
        let type_converted_matches : List (List Bool) :=
          match value with
          | Value.vStr s =>
              (match pyIntOfString s with
               | some n => [column.map (fun c => pyEq c (Value.vInt n))]
               | none => []) ++
              (match pyFloatOfString s with
               | some q => [column.map (fun c => pyEq c (Value.vFloat q))]
               | none => [])
          | Value.vInt _ | Value.vFloat _ =>
              [column.map (fun c => pyStrCol c == pyStr value)]
          | _ => []
        if !type_converted_matches.isEmpty then
          type_converted_matches.foldl maskOr direct
        else direct
      else direct
  | .NOT_EQUALS => column.map (fun c => !pyEq c value)
  | .CONTAINS =>
      match rePyParse (pyStr value).data with
      | some seq => column.map (fun c => reSearch seq (pyStrCol c).data)
      | none => List.replicate column.length false
  | .NOT_CONTAINS =>
      match rePyParse (pyStr value).data with
      | some seq => column.map (fun c => !reSearch seq (pyStrCol c).data)
      | none => List.replicate column.length false
  | .STARTS_WITH =>
      column.map (fun c => strStartsWith (pyStrCol c) (pyStr value))
  | .ENDS_WITH =>
      column.map (fun c => strEndsWith (pyStrCol c) (pyStr value))
  | .GREATER_THAN =>
      match pyFloatOfValue value with
      | some v => column.map (fun c => match toNumericCoerce c with
          | some q => decide (q > v) | none => false)
      | none => List.replicate column.length false
  | .GREATER_EQUAL =>
      match pyFloatOfValue value with
      | some v => column.map (fun c => match toNumericCoerce c with
          | some q => decide (q ≥ v) | none => false)
      | none => List.replicate column.length false
  | .LESS_THAN =>
      match pyFloatOfValue value with
      | some v => column.map (fun c => match toNumericCoerce c with
          | some q => decide (q < v) | none => false)
      | none => List.replicate column.length false
  | .LESS_EQUAL =>
      match pyFloatOfValue value with
      | some v => column.map (fun c => match toNumericCoerce c with
          | some q => decide (q ≤ v) | none => false)
      | none => List.replicate column.length false
  | .IS_EMPTY => column.map cellIsEmpty
  | .IS_NOT_EMPTY => column.map (fun c => !cellIsEmpty c)

/-! ## Standard-loader column labels
(src/core/enhanced_excel_processor.py, `_load_standard_excel`) -/

/-- `string.ascii_uppercase` as a character list. -/
def asciiUppercase : List Char := "ABCDEFGHIJKLMNOPQRSTUVWXYZ".data

/-- The per-position label of the `max_cols > 26` branch:
`uppercase[i]` for `i < 26`, else
`uppercase[(i-26)//26] + uppercase[i%26]`; `none` models the
`IndexError` raised when `(i-26)//26 ≥ 26`, i.e. `i ≥ 702`. -/
def loaderLabel (i : Nat) : Option String :=
  if i < 26 then
    (asciiUppercase.get? i).map String.singleton
  else
    match asciiUppercase.get? ((i - 26) / 26), asciiUppercase.get? (i % 26) with
    | some a, some b => some (String.mk [a, b])
    | _, _ => none

/-- The label-building loop of the `max_cols > 26` branch: one label per
position, aborting at the first `IndexError`. -/
def buildLabels : List Nat → Option (List String)
  | [] => some []
  | i :: rest =>
      match loaderLabel i with
      | some l => (buildLabels rest).map (l :: ·)
      | none => none

/-- The synthetic column labels `_load_standard_excel` assigns for a table
of `maxCols` columns: `list(string.ascii_uppercase)[:max_cols]` when
`max_cols ≤ 26`, else the per-position two-letter scheme.  `none` models
the `IndexError` (caught by the outer `except`, which makes the whole load
return `None`). -/
def loaderColumns (maxCols : Nat) : Option (List String) :=
  if maxCols ≤ 26 then
    some ((asciiUppercase.take maxCols).map String.singleton)
  else
    buildLabels (List.range maxCols)

/-! ## Tables and the mapping engine (src/core/data_mapping_engine.py) -/

/-- A loaded table: its columns in positional order (pandas `DataFrame`
accessed through `iloc`); every column is the list of its cells in row
order. -/
abbrev Table := List (List Value)

/-- A `{filename: DataFrame}` dictionary, as an association list. -/
abbrev TableSet := List (String × Table)

/-- Dictionary lookup. -/
def TableSet.find (ts : TableSet) (key : String) : Option Table :=
  (ts.find? (fun p => p.1 == key)).map Prod.snd

/-- Dictionary update `d[key] = value` (on a `.copy()`; the original is
unchanged). -/
def TableSet.set (ts : TableSet) (key : String) (t : Table) : TableSet :=
  if (ts.find? (fun p => p.1 == key)).isSome then
    ts.map (fun p => if p.1 == key then (key, t) else p)
  else ts ++ [(key, t)]

/-- Python sequence indexing as `df.iloc[:, i]` performs it: non-negative
indices from the front, negative indices from the back. -/
def pyIdx (n : Nat) (i : Int) : Option Nat :=
  if 0 ≤ i then
    if i < (n : Int) then some i.toNat else none
  else
    if i.natAbs ≤ n then some (n - i.natAbs) else none

/-- `df.iloc[:, i]`: select column `i`, Python indexing rules. -/
def pyGetCol (df : Table) (i : Int) : Option (List Value) :=
  (pyIdx df.length i).bind (fun j => df.get? j)

/-- Replace column `i` of a table, Python indexing rules (models the
per-cell `df.iloc[pos, i] = v` writes, all confined to column `i`). -/
def pySetCol (df : Table) (i : Int) (col : List Value) : Table :=
  match pyIdx df.length i with
  | some j => df.set j col
  | none => df

/-- `DataMapping` (src/database/models.py), the fields the engine reads.
Row ranges are the optional inclusive 1-based `(start, end)` windows. -/
structure DataMapping where
  name : String := ""
  source_file : String
  source_match_coordinate : ExcelCoordinate
  source_match_value : Value
  source_value_coordinate : ExcelCoordinate
  source_match_row_range : Option (Nat × Nat) := none
  target_file : String
  target_match_coordinate : ExcelCoordinate
  target_match_value : Value
  target_match_row_range : Option (Nat × Nat) := none
  target_insert_coordinate : ExcelCoordinate
  match_operator : FilterOperator := .EQUALS
  overwrite_existing : Bool := true
deriving Repr

/-- `DataMappingEngine._get_column_index`: only whole-column and
single-cell coordinates resolve, both through `column_to_index`. -/
def getColumnIndex (coordinate : ExcelCoordinate) : Except String Int :=
  if coordinate.coord_type = "column" then
    .ok (column_to_index coordinate.column)
  else if coordinate.coord_type = "single" then
    .ok (column_to_index coordinate.column)
  else
    .error "不支持的坐标类型用于列索引"

/-- `series.iloc[start-1:end]` for a 1-based inclusive row window. -/
def sliceRowRange (rng : Option (Nat × Nat)) (col : List Value) :
    List Value :=
  match rng with
  | none => col
  | some (s, e) => (col.drop (s - 1)).take (e - (s - 1))

/-- Row offset the window introduces: positions in the sliced series keep
their original labels, `slicePos + (start-1)`. -/
def rangeOffset (rng : Option (Nat × Nat)) : Nat :=
  match rng with
  | none => 0
  | some (s, _) => s - 1

/-- The true positions of a mask, in row order. -/
def maskPositions (mask : List Bool) : List Nat :=
  (mask.enum.filter (fun p => p.2)).map Prod.fst

/-- `DataMappingEngine._extract_source_values`: resolve both columns,
bound-check, window, match, then collect the value-column entries at
masked rows in row order, dropping nulls
(`value_column[matched_rows].dropna().tolist()`). -/
def extractSourceValues (mapping : DataMapping) (source_data : TableSet) :
    Except String (List Value) := do
  match source_data.find mapping.source_file with
  | none => .error "源文件未找到"
  | some df =>
    let match_col_index ← getColumnIndex mapping.source_match_coordinate
    let value_col_index ← getColumnIndex mapping.source_value_coordinate
    if match_col_index ≥ (df.length : Int) ∨
        value_col_index ≥ (df.length : Int) then
      .error "列索引超出范围"
    else
      match pyGetCol df match_col_index, pyGetCol df value_col_index with
      | some mc, some vc =>
          let match_column := sliceRowRange mapping.source_match_row_range mc
          let value_column := sliceRowRange mapping.source_match_row_range vc
          let matched_rows := applyMatchOperator match_column
            mapping.source_match_value mapping.match_operator
          .ok (((value_column.zip matched_rows).filter
              (fun p => p.2 && !isna p.1)).map Prod.fst)
      | _, _ => .error "列索引超出范围"

/-- `DataMappingEngine._find_target_positions`: resolve the match column,
bound-check, window, match, and return the original row indices where the
mask is true. -/
def findTargetPositions (mapping : DataMapping) (target_data : TableSet) :
    Except String (List Nat) := do
  match target_data.find mapping.target_file with
  | none => .error "目标文件未找到"
  | some df =>
    let match_col_index ← getColumnIndex mapping.target_match_coordinate
    if match_col_index ≥ (df.length : Int) then
      .error "目标匹配列索引超出范围"
    else
      match pyGetCol df match_col_index with
      | some mc =>
          let match_column := sliceRowRange mapping.target_match_row_range mc
          let matched_rows := applyMatchOperator match_column
            mapping.target_match_value mapping.match_operator
          .ok ((maskPositions matched_rows).map
            (· + rangeOffset mapping.target_match_row_range))
      | none => .error "目标匹配列索引超出范围"

/-- The value the insert loop picks for the `i`-th target position:
`source_values[i]` when available, else the last extracted value
(`none` only when there are no extracted values at all, in which case the
loop body does nothing for that position). -/
def chooseValue (source_values : List Value) (i : Nat) : Option Value :=
  if i < source_values.length then source_values.get? i
  else source_values.getLast?

/-- One iteration of the insert loop at position `pos` with candidate
value `v`: write iff `overwrite_existing` or the current cell is na. -/
def insertAt (overwrite : Bool) (col : List Value) (pos : Nat) (v : Value) :
    Except String (List Value) :=
  match col.get? pos with
  | none => .error "IndexError"
  | some old =>
      if overwrite || isna old then .ok (col.set pos v) else .ok col

/-- One iteration of the insert loop for the enumerated pair
`(i, pos)`. -/
def insertStep (overwrite : Bool) (source_values : List Value)
    (col : List Value) (ip : Nat × Nat) : Except String (List Value) :=
  match chooseValue source_values ip.1 with
  | some v => insertAt overwrite col ip.2 v
  | none => .ok col

/-- The insert loop over `enumerate(target_positions)`. -/
def insertLoop (overwrite : Bool) (source_values : List Value)
    (col : List Value) (positions : List Nat) : Except String (List Value) :=
  (positions.enum).foldlM (insertStep overwrite source_values) col

/-- `DataMappingEngine._insert_values`: resolve the insert column,
bound-check, run the insert loop, and store the updated table back under
the target key. -/
def insertValues (mapping : DataMapping) (target_data : TableSet)
    (source_values : List Value) (target_positions : List Nat) :
    Except String TableSet := do
  match target_data.find mapping.target_file with
  | none => .error "KeyError"
  | some df =>
    let insert_col_index ← getColumnIndex mapping.target_insert_coordinate
    if insert_col_index ≥ (df.length : Int) then
      .error "目标插入列索引超出范围"
    else
      match pyGetCol df insert_col_index with
      | some col =>
          let newCol ← insertLoop mapping.overwrite_existing source_values
            col target_positions
          .ok (target_data.set mapping.target_file
            (pySetCol df insert_col_index newCol))
      | none => .error "IndexError"

/-- `DataMappingEngine.execute_mapping`: extract, locate, insert; an empty
extraction or an empty position list returns the target tables unchanged.
(The source additionally logs a debug sample in the no-position case by
recomputing the already-resolved target match column index, a pure
repetition with no effect on the result.) -/
def executeMapping (mapping : DataMapping) (source_data : TableSet)
    (target_data : TableSet) : Except String TableSet := do
  let source_values ← extractSourceValues mapping source_data
  if source_values.isEmpty then
    .ok target_data
  else
    let target_positions ← findTargetPositions mapping target_data
    if target_positions.isEmpty then
      .ok target_data
    else
      insertValues mapping target_data source_values target_positions

/-- `DataMappingEngine.execute_multiple_mappings`: fold the rules in list
order over a running copy of the target tables; a failing rule is caught
and skipped, leaving the running tables as they stood. -/
def executeMultipleMappings (mappings : List DataMapping)
    (source_data : TableSet) (target_data : TableSet) : TableSet :=
  mappings.foldl
    (fun current m =>
      match executeMapping m source_data current with
      | .ok t => t
      | .error _ => current)
    target_data

/-- `DataMappingEngine.validate_mapping`: collect (never raise) the list
of problems: missing file keys, unresolvable coordinates, and resolved
column indices `≥` the column count. -/
def validateMapping (mapping : DataMapping) (source_data : TableSet)
    (target_data : TableSet) : List String :=
  let sourceErrors :=
    match source_data.find mapping.source_file with
    | none => ["源文件不存在"]
    | some df =>
        match getColumnIndex mapping.source_match_coordinate,
              getColumnIndex mapping.source_value_coordinate with
        | .ok mi, .ok vi =>
            (if mi ≥ (df.length : Int) then ["源匹配列索引超出范围"] else []) ++
            (if vi ≥ (df.length : Int) then ["源取值列索引超出范围"] else [])
        | _, _ => ["源列配置错误"]
  let targetErrors :=
    match target_data.find mapping.target_file with
    | none => ["目标文件不存在"]
    | some df =>
        match getColumnIndex mapping.target_match_coordinate,
              getColumnIndex mapping.target_insert_coordinate with
        | .ok mi, .ok ii =>
            (if mi ≥ (df.length : Int) then ["目标匹配列索引超出范围"] else []) ++
            (if ii ≥ (df.length : Int) then ["目标插入列索引超出范围"] else [])
        | _, _ => ["目标列配置错误"]
  sourceErrors ++ targetErrors

/-! ## Spec-side vocabulary for the EQUALS fallback (claim C1) -/

/-- The direct value-for-value comparison mask of the spec. -/
def directMask (column : List Value) (value : Value) : List Bool :=
  column.map (fun c => pyEq c value)

/-- The coerced-comparison masks of the spec: for a string comparison
value, one mask per successful int / float conversion; for a numeric
comparison value, the string-cast mask. -/
def coercedMasks (column : List Value) (value : Value) : List (List Bool) :=
  match value with
  | Value.vStr s =>
      (match pyIntOfString s with
       | some n => [column.map (fun c => pyEq c (Value.vInt n))]
       | none => []) ++
      (match pyFloatOfString s with
       | some q => [column.map (fun c => pyEq c (Value.vFloat q))]
       | none => [])
  | Value.vInt _ | Value.vFloat _ =>
      [column.map (fun c => pyStrCol c == pyStr value)]
  | _ => []

/-- The spec's convertibility condition: a string representable as an
integer or float, or a numeric value (always representable as a string). -/
def convertibleValue : Value → Bool
  | Value.vStr s => (pyIntOfString s).isSome || (pyFloatOfString s).isSome
  | Value.vInt _ => true
  | Value.vFloat _ => true
  | Value.vNull => false

/-- C1: evaluating EQUALS first computes the direct mask; exactly when
that mask has zero true entries and the comparison value is convertible
across the string/number boundary, the result is the OR of the direct
mask with every coerced-comparison mask, and otherwise it is the direct
mask itself; in particular column `[202, "x"]` against `"202"` yields
`[true, false]`. -/
theorem claim_C1_equals_coercion_fallback :
    (∀ (column : List Value) (value : Value),
      applyMatchOperator column value .EQUALS =
        if (directMask column value).any id = false ∧
            convertibleValue value = true then
          (coercedMasks column value).foldl maskOr (directMask column value)
        else directMask column value)
    ∧ applyMatchOperator [Value.vInt 202, Value.vStr "x"]
        (Value.vStr "202") .EQUALS = [true, false] := by
  constructor
  · intro column value
    cases value with
    | vNull =>
        simp [applyMatchOperator, directMask, coercedMasks, convertibleValue]
    | vInt i =>
        simp only [applyMatchOperator, directMask, coercedMasks,
          convertibleValue]
        by_cases h : (column.map (fun c => pyEq c (Value.vInt i))).any id = false
        · simp [h]
        · simp [h]
    | vFloat q =>
        simp only [applyMatchOperator, directMask, coercedMasks,
          convertibleValue]
        by_cases h :
            (column.map (fun c => pyEq c (Value.vFloat q))).any id = false
        · simp [h]
        · simp [h]
    | vStr s =>
        simp only [applyMatchOperator, directMask, coercedMasks,
          convertibleValue]
        by_cases h : (column.map (fun c => pyEq c (Value.vStr s))).any id = false
        · cases h1 : pyIntOfString s <;> cases h2 : pyFloatOfString s <;>
            simp [h, h1, h2]
        · cases h1 : pyIntOfString s <;> cases h2 : pyFloatOfString s <;>
            simp [h, h1, h2]
  · decide

/-! ## Claim C2: range parsing -/

/-- C2 counterexample: parsing `"A1:A1"` does **not** yield a
whole-column coordinate; it yields the degenerate range `A1:A1`
(only equal all-letter sides such as `"A:A"` collapse to a column). -/
theorem claim_C2_counterexample :
    from_string "A1:A1" = Except.ok
      { column := "A", row := 1, end_column := "A", end_row := 1,
        coord_type := "range" } ∧
    ({ column := "A", row := 1, end_column := "A", end_row := 1,
        coord_type := "range" } : ExcelCoordinate) ≠
      { column := "A", coord_type := "column" } :=
  ⟨rfl, by decide⟩

/-- C2 amended: parsing `"A1:A1"` yields `kind=range` with start `A1` and
end `A1` (while `"A:A"` yields `kind=column` with column `"A"`); parsing
`"1:1"` yields `kind=row` with row 1; and parsing `"A1:B5"` yields a
range with start `A1` and end `B5`. -/
theorem claim_C2_range_parsing :
    from_string "A1:A1" = Except.ok
      { column := "A", row := 1, end_column := "A", end_row := 1,
        coord_type := "range" } ∧
    from_string "A:A" = Except.ok { column := "A", coord_type := "column" } ∧
    from_string "1:1" = Except.ok { row := 1, coord_type := "row" } ∧
    from_string "A1:B5" = Except.ok
      { column := "A", row := 1, end_column := "B", end_row := 5,
        coord_type := "range" } :=
  ⟨rfl, rfl, rfl, rfl⟩

/-! ## Claim C8: string operators on null cells -/

/-- C8 counterexample: under `CONTAINS`, a null cell **is** selected when
the comparison string occurs in `"nan"` (the string form `astype(str)`
gives the null cell): column `[null]` against `"a"` yields `[true]`,
where the claim requires `[false]`. -/
theorem claim_C8_counterexample :
    applyMatchOperator [Value.vNull] (Value.vStr "a") .CONTAINS = [true] ∧
    [true] ≠ [false] := by
  constructor
  · decide
  · decide

/-- Literal patterns: a metacharacter-free string compiles to a plain
sequence of one-shot character atoms. -/
def litSeq (cs : List Char) : ReSeq :=
  cs.map (fun c => (ReAtom.achar c, ReQuant.qone))

theorem rePyParseAux_literal :
    ∀ cs : List Char, (∀ ch ∈ cs, ch ∉ reMetachars) →
      rePyParseAux none cs = some (litSeq cs) ∧
      ∀ a, rePyParseAux (some a) cs = some ((a, ReQuant.qone) :: litSeq cs) := by
  intro cs
  induction cs with
  | nil => intro _; exact ⟨rfl, fun a => rfl⟩
  | cons c rest ih =>
      intro h
      have hc : c ∉ reMetachars := h c (List.mem_cons_self _ _)
      have hrest := ih (fun x hx => h x (List.mem_cons_of_mem c hx))
      have hq : ¬(c = '*' ∨ c = '+' ∨ c = '?') := by
        intro hor
        apply hc
        rcases hor with h1 | h1 | h1 <;> (subst h1; decide)
      have hdot : ¬(c = '.') := fun h1 => hc (by subst h1; decide)
      constructor
      · show rePyParseAux none (c :: rest) = _
        unfold rePyParseAux
        rw [if_neg hq]
        simp only [if_neg hdot, if_neg hc]
        rw [hrest.2 (ReAtom.achar c)]
        rfl
      · intro a
        unfold rePyParseAux
        rw [if_neg hq]
        simp only [if_neg hdot, if_neg hc]
        rw [hrest.2 (ReAtom.achar c)]
        rfl

theorem reMatchHere_literal :
    ∀ (cs : List Char) (f : Nat) (s : List Char), cs.length < f →
      reMatchHere f (litSeq cs) s = List.isPrefixOf cs s := by
  intro cs
  induction cs with
  | nil =>
      intro f s hf
      match f, hf with
      | g + 1, _ => cases s <;> rfl
  | cons c rest ih =>
      intro f s hf
      match f, hf with
      | g + 1, hf =>
          cases s with
          | nil => rfl
          | cons d s' =>
              show (reAtomMatches (ReAtom.achar c) d &&
                  reMatchHere g (litSeq rest) s') = _
              rw [ih g s' (by simp [List.length_cons] at hf; omega)]
              rfl

theorem reMatchStart_literal (cs s : List Char) :
    reMatchStart (litSeq cs) s = List.isPrefixOf cs s := by
  unfold reMatchStart
  apply reMatchHere_literal
  have hl : (litSeq cs).length = cs.length := List.length_map _ _
  omega

theorem isPrefixOf_eq_decide (a b : List Char) :
    a.isPrefixOf b = decide (a <+: b) := by
  by_cases h : a <+: b
  · rw [List.isPrefixOf_iff_prefix.mpr h, decide_eq_true h]
  · have h2 : ¬ (a.isPrefixOf b = true) := fun hh =>
      h (List.isPrefixOf_iff_prefix.mp hh)
    rw [Bool.not_eq_true] at h2
    rw [h2, decide_eq_false h]

theorem reSearch_literal :
    ∀ (cs s : List Char), reSearch (litSeq cs) s = decide (List.IsInfix cs s) := by
  intro cs s
  induction s with
  | nil =>
      show reMatchStart (litSeq cs) [] = _
      rw [reMatchStart_literal, isPrefixOf_eq_decide]
      simp [List.prefix_nil, List.infix_nil]
  | cons c rest ih =>
      show (reMatchStart (litSeq cs) (c :: rest) || reSearch (litSeq cs) rest) = _
      rw [reMatchStart_literal, ih, isPrefixOf_eq_decide]
      simp [List.infix_cons_iff]

/-- For a metacharacter-free comparison string, regex search degenerates
to literal substring containment, so the `CONTAINS` mask is the
substring mask. -/
theorem contains_literal_eq_substring (column : List Value) (value : Value)
    (h : ∀ ch ∈ (pyStr value).data, ch ∉ reMetachars) :
    applyMatchOperator column value .CONTAINS =
      column.map (fun c => strContains (pyStrCol c) (pyStr value)) := by
  show (match rePyParse (pyStr value).data with
    | some seq => column.map (fun c => reSearch seq (pyStrCol c).data)
    | none => List.replicate column.length false) = _
  rw [show rePyParse (pyStr value).data = some (litSeq (pyStr value).data)
    from (rePyParseAux_literal _ h).1]
  apply List.map_congr_left
  intro c _
  exact reSearch_literal _ _

/-- C8 amended: the string operators coerce the column to string form
first, a null cell becoming the string `"nan"`.  `STARTS_WITH` /
`ENDS_WITH` are literal prefix/suffix tests, so a null row is selected
under them exactly when `"nan"` literally starts/ends with the comparison
string and never otherwise.  `CONTAINS` applies the comparison string as
a regular expression (pandas `regex=True`): for metacharacter-free
comparison strings selection coincides with literal substring
containment (so `CONTAINS "a"` selects null rows), and regex syntax
reaches the null row's `"nan"` as well — the wildcard pattern `"."`
selects it while the literal `"x"` does not.  Null rows are therefore not
excluded by any of the three operators. -/
theorem claim_C8_string_operators :
    (∀ (column : List Value) (value : Value),
      applyMatchOperator column value .STARTS_WITH =
        column.map (fun c => strStartsWith (pyStrCol c) (pyStr value)) ∧
      applyMatchOperator column value .ENDS_WITH =
        column.map (fun c => strEndsWith (pyStrCol c) (pyStr value))) ∧
    (∀ (column : List Value) (value : Value),
      (∀ ch ∈ (pyStr value).data, ch ∉ reMetachars) →
      applyMatchOperator column value .CONTAINS =
        column.map (fun c => strContains (pyStrCol c) (pyStr value))) ∧
    pyStrCol Value.vNull = "nan" ∧
    (∀ (value : Value),
      applyMatchOperator [Value.vNull] value .STARTS_WITH =
        [strStartsWith "nan" (pyStr value)] ∧
      applyMatchOperator [Value.vNull] value .ENDS_WITH =
        [strEndsWith "nan" (pyStr value)]) ∧
    applyMatchOperator [Value.vNull] (Value.vStr "a") .CONTAINS = [true] ∧
    applyMatchOperator [Value.vNull] (Value.vStr ".") .CONTAINS = [true] ∧
    applyMatchOperator [Value.vNull] (Value.vStr "x") .CONTAINS = [false] := by
  refine ⟨fun column value => ⟨rfl, rfl⟩,
    fun column value h => contains_literal_eq_substring column value h,
    rfl, fun value => ⟨rfl, rfl⟩, by decide, by decide, by decide⟩

/-- Witness for C8's literal-pattern part at a concrete column and the
metacharacter-free pattern `"an"`. -/
theorem claim_C8_string_operators_witness :
    applyMatchOperator [Value.vNull, Value.vStr "banana"] (Value.vStr "an")
        .CONTAINS =
      [strContains "nan" "an", strContains "banana" "an"] :=
  claim_C8_string_operators.2.1 [Value.vNull, Value.vStr "banana"]
    (Value.vStr "an") (by decide)

/-! ## Claim C5: column-letter / index round trips -/

/-- The base-26 fold of `column_to_index`, over naturals. -/
def natVal (cs : List Char) : Nat :=
  cs.foldl (fun r c => r * 26 + (c.toNat - 64)) 0

theorem char_toNat_inj {c d : Char} (h : c.toNat = d.toNat) : c = d := by
  apply Char.ext
  apply UInt32.ext
  exact h

theorem char_le_iff_toNat {a b : Char} : a ≤ b ↔ a.toNat ≤ b.toNat := by
  rw [Char.le_def]; rfl

theorem charOfNat_toNat : ∀ k < 91, 65 ≤ k → (Char.ofNat k).toNat = k := by
  decide

theorem natVal_append (xs : List Char) (c : Char) :
    natVal (xs ++ [c]) = natVal xs * 26 + (c.toNat - 64) := by
  simp [natVal, List.foldl_append]

theorem intFold_eq_natVal :
    ∀ (cs : List Char) (a : Nat), (∀ c ∈ cs, 65 ≤ c.toNat) →
      cs.foldl (fun r c => r * 26 + ((c.toNat : Int) - 64)) (a : Int) =
        ((cs.foldl (fun r c => r * 26 + (c.toNat - 64)) a : Nat) : Int) := by
  intro cs
  induction cs with
  | nil => intro a _; rfl
  | cons c rest ih =>
      intro a h
      have hc : 65 ≤ c.toNat := h c (List.mem_cons_self c rest)
      have hrest : ∀ x ∈ rest, 65 ≤ x.toNat := fun x hx =>
        h x (List.mem_cons_of_mem c hx)
      simp only [List.foldl_cons]
      have : (a : Int) * 26 + ((c.toNat : Int) - 64) =
          ((a * 26 + (c.toNat - 64) : Nat) : Int) := by
        push_cast [Nat.cast_sub (by omega : 64 ≤ c.toNat)]
        ring
      rw [this, ih]
      exact hrest

theorem column_to_index_eq_natVal (c : String)
    (h : ∀ ch ∈ c.data, 65 ≤ ch.toNat) :
    column_to_index c = ((natVal c.data : Nat) : Int) - 1 := by
  unfold column_to_index natVal
  rw [show ((0 : Int) = ((0 : Nat) : Int)) from rfl, intFold_eq_natVal c.data 0 h]

theorem natVal_lettersOfSucc : ∀ v : Nat, natVal (lettersOfSucc v) = v := by
  intro v
  induction v using Nat.strong_induction_on with
  | _ v ih =>
      match v with
      | 0 => rfl
      | n + 1 =>
          rw [lettersOfSucc_succ, natVal_append,
            ih (n / 26) (Nat.lt_succ_of_le (Nat.div_le_self n 26))]
          have hc : (Char.ofNat (n % 26 + 65)).toNat = n % 26 + 65 :=
            charOfNat_toNat (n % 26 + 65) (by omega) (by omega)
          omega

theorem lettersOfSucc_valid :
    ∀ v : Nat, ∀ c ∈ lettersOfSucc v, 65 ≤ c.toNat ∧ c.toNat ≤ 90 := by
  intro v
  induction v using Nat.strong_induction_on with
  | _ v ih =>
      match v with
      | 0 => simp [lettersOfSucc, lettersAux]
      | n + 1 =>
          rw [lettersOfSucc_succ]
          intro c hc
          rcases List.mem_append.mp hc with h | h
          · exact ih (n / 26) (Nat.lt_succ_of_le (Nat.div_le_self n 26)) c h
          · have : c = Char.ofNat (n % 26 + 65) := List.mem_singleton.mp h
            subst this
            rw [charOfNat_toNat (n % 26 + 65) (by omega) (by omega)]
            omega

theorem lettersOfSucc_natVal :
    ∀ cs : List Char, (∀ c ∈ cs, 65 ≤ c.toNat ∧ c.toNat ≤ 90) →
      lettersOfSucc (natVal cs) = cs := by
  intro cs
  induction cs using List.reverseRecOn with
  | nil =>
      intro _
      rfl
  | append_singleton xs c ih =>
      intro h
      have hc : 65 ≤ c.toNat ∧ c.toNat ≤ 90 :=
        h c (List.mem_append.mpr (Or.inr (List.mem_singleton.mpr rfl)))
      have hxs : ∀ x ∈ xs, 65 ≤ x.toNat ∧ x.toNat ≤ 90 := fun x hx =>
        h x (List.mem_append.mpr (Or.inl hx))
      rw [natVal_append]
      have hd : 1 ≤ c.toNat - 64 ∧ c.toNat - 64 ≤ 26 := by omega
      have hsucc : natVal xs * 26 + (c.toNat - 64) =
          (natVal xs * 26 + (c.toNat - 64) - 1) + 1 := by omega
      rw [hsucc, lettersOfSucc_succ]
      have hdiv : (natVal xs * 26 + (c.toNat - 64) - 1) / 26 = natVal xs := by
        omega
      have hmod : (natVal xs * 26 + (c.toNat - 64) - 1) % 26 =
          c.toNat - 64 - 1 := by omega
      rw [hdiv, hmod, ih hxs]
      have : c.toNat - 64 - 1 + 65 = c.toNat := by omega
      rw [this]
      have : (Char.ofNat c.toNat).toNat = c.toNat :=
        charOfNat_toNat c.toNat (by omega) (by omega)
      rw [char_toNat_inj this]

/-- C5: for every non-empty uppercase A–Z column string `c`,
`index_to_column (column_to_index c) = c`; for every non-negative index
`i`, `column_to_index (index_to_column i) = i`; and the multi-letter pair
index 26 ↔ `"AA"` behaves as claimed. -/
theorem claim_C5_roundtrip :
    (∀ c : String, c ≠ "" → (∀ ch ∈ c.data, 'A' ≤ ch ∧ ch ≤ 'Z') →
      index_to_column (column_to_index c) = c) ∧
    (∀ i : Nat, column_to_index (index_to_column (i : Int)) = (i : Int)) ∧
    index_to_column 26 = "AA" ∧ column_to_index "AA" = 26 := by
  refine ⟨?_, ?_, by decide, by decide⟩
  · intro c hne hvalid
    have hvalid' : ∀ ch ∈ c.data, 65 ≤ ch.toNat ∧ ch.toNat ≤ 90 := by
      intro ch hch
      have h := hvalid ch hch
      exact ⟨char_le_iff_toNat.mp h.1, char_le_iff_toNat.mp h.2⟩
    have hdata : c.data ≠ [] := by
      intro h
      apply hne
      cases c with
      | mk data => simp at h; simp [h]
    rw [column_to_index_eq_natVal c (fun ch hch => (hvalid' ch hch).1)]
    unfold index_to_column
    have : ((natVal c.data : Nat) : Int) - 1 + 1 = ((natVal c.data : Nat) : Int) := by ring
    rw [this, Int.toNat_natCast, lettersOfSucc_natVal c.data hvalid']
  · intro i
    unfold index_to_column
    have h1 : ((i : Int) + 1).toNat = i + 1 := by omega
    rw [h1]
    have h2 : ∀ ch ∈ (String.mk (lettersOfSucc (i + 1))).data, 65 ≤ ch.toNat :=
      fun ch hch => (lettersOfSucc_valid (i + 1) ch hch).1
    rw [column_to_index_eq_natVal _ h2]
    show ((natVal (lettersOfSucc (i + 1)) : Nat) : Int) - 1 = (i : Int)
    rw [natVal_lettersOfSucc]
    push_cast
    ring

/-- Witness for C5 at the concrete column `"ABC"` and index 26. -/
theorem claim_C5_roundtrip_witness :
    index_to_column (column_to_index "ABC") = "ABC" ∧
    column_to_index (index_to_column (26 : Nat)) = (26 : Int) :=
  ⟨claim_C5_roundtrip.1 "ABC" (by decide) (by decide),
   claim_C5_roundtrip.2.1 26⟩

/-! ## Claim C9: loader labels vs `index_to_column` -/

theorem asciiUppercase_get :
    ∀ j < 26, asciiUppercase.get? j = some (Char.ofNat (j + 65)) := by
  decide

theorem asciiUppercase_eq_range :
    asciiUppercase = (List.range 26).map (fun i => Char.ofNat (i + 65)) := by
  decide

theorem index_to_column_single (i : Nat) (h : i < 26) :
    index_to_column (i : Int) = String.mk [Char.ofNat (i + 65)] := by
  unfold index_to_column
  have h1 : ((i : Int) + 1).toNat = i + 1 := by omega
  rw [h1, lettersOfSucc_succ, Nat.div_eq_of_lt h, Nat.mod_eq_of_lt h]
  rfl

theorem index_to_column_double (i : Nat) (h26 : 26 ≤ i) (h : i < 702) :
    index_to_column (i : Int) =
      String.mk [Char.ofNat (i / 26 - 1 + 65), Char.ofNat (i % 26 + 65)] := by
  unfold index_to_column
  have h1 : ((i : Int) + 1).toNat = i + 1 := by omega
  rw [h1, lettersOfSucc_succ]
  have h2 : i / 26 = (i / 26 - 1) + 1 := by omega
  rw [h2, lettersOfSucc_succ]
  have h3 : (i / 26 - 1) / 26 = 0 := by omega
  have h4 : (i / 26 - 1) % 26 = i / 26 - 1 := by omega
  rw [h3, h4]
  rfl

theorem loaderLabel_eq_index_to_column :
    ∀ i < 702, loaderLabel i = some (index_to_column (i : Int)) := by
  intro i hi
  by_cases h : i < 26
  · unfold loaderLabel
    rw [if_pos h, asciiUppercase_get i h, index_to_column_single i h]
    rfl
  · push_neg at h
    unfold loaderLabel
    rw [if_neg (by omega)]
    have hq : (i - 26) / 26 < 26 := by omega
    have hq' : (i - 26) / 26 = i / 26 - 1 := by omega
    rw [asciiUppercase_get _ hq, asciiUppercase_get _ (Nat.mod_lt i (by omega)),
      index_to_column_double i h hi, hq']

theorem buildLabels_eq_map {g : Nat → String} :
    ∀ l : List Nat, (∀ i ∈ l, loaderLabel i = some (g i)) →
      buildLabels l = some (l.map g) := by
  intro l
  induction l with
  | nil => intro _; rfl
  | cons i rest ih =>
      intro h
      unfold buildLabels
      rw [h i (List.mem_cons_self i rest),
        ih (fun j hj => h j (List.mem_cons_of_mem i hj))]
      rfl

set_option maxRecDepth 40000 in
/-- C9 counterexample: for a table of 703 columns the loader's label
generator hits `uppercase[(702-26)//26] = uppercase[26]`, an `IndexError`
(so no labels are assigned at all), while the Coordinate conversion maps
index 702 to the three-letter label `"AAA"`; the two generators do not
agree at every position of every column count. -/
theorem claim_C9_counterexample :
    loaderColumns 703 = none ∧ index_to_column (702 : Int) = "AAA" := by
  constructor
  · rfl
  · rfl

/-- C9 amended: for every column count `n ≤ 702` and every position
`i < n`, the standard loader's synthetic label at position `i` equals
`index_to_column i`; for larger tables the loader's generator fails with
an `IndexError` at position 702 (see the counterexample). -/
theorem claim_C9_loader_labels :
    ∀ n ≤ 702, loaderColumns n =
      some ((List.range n).map (fun i : Nat => index_to_column i)) := by
  intro n hn
  unfold loaderColumns
  by_cases h : n ≤ 26
  · rw [if_pos h, asciiUppercase_eq_range, ← List.map_take, List.take_range,
      Nat.min_eq_left h, List.map_map]
    congr 1
    apply List.map_congr_left
    intro i hi
    have hi26 : i < 26 := lt_of_lt_of_le (List.mem_range.mp hi) h
    rw [Function.comp_apply, index_to_column_single i hi26]
    rfl
  · rw [if_neg h]
    apply buildLabels_eq_map
    intro i hi
    exact loaderLabel_eq_index_to_column i
      (lt_of_lt_of_le (List.mem_range.mp hi) hn)

/-- Witness for C9 at the concrete column count 27 (which exercises both
the single-letter and the two-letter positions). -/
theorem claim_C9_loader_labels_witness :
    loaderColumns 27 =
      some ((List.range 27).map (fun i : Nat => index_to_column i)) :=
  claim_C9_loader_labels 27 (by decide)

/-! ## Claims C3 / C4: the insert loop -/

theorem chooseValue_isSome (vals : List Value) (hv : vals ≠ []) (i : Nat) :
    ∃ v, chooseValue vals i = some v := by
  unfold chooseValue
  by_cases h : i < vals.length
  · exact ⟨vals.get ⟨i, h⟩, by rw [if_pos h]; exact List.get?_eq_get h⟩
  · exact ⟨vals.getLast hv, by rw [if_neg h]; exact List.getLast?_eq_getLast vals hv⟩

/-- Full characterization of the insert loop, for any starting value of
the `enumerate` counter: it never fails when the positions are in bounds,
writes `chooseValue` at each distinct position exactly when
`overwrite_existing` holds or the current cell is na, and leaves every
other cell untouched. -/
theorem insertLoop_enumFrom_char (overwrite : Bool) (vals : List Value)
    (hv : vals ≠ []) :
    ∀ (positions : List Nat) (k : Nat) (col : List Value),
      positions.Nodup → (∀ p ∈ positions, p < col.length) →
      ∃ newCol,
        (List.enumFrom k positions).foldlM (insertStep overwrite vals) col
          = Except.ok newCol ∧
        newCol.length = col.length ∧
        (∀ j p, positions.get? j = some p →
          newCol.get? p =
            some (if overwrite || isna (col.getD p Value.vNull)
              then (chooseValue vals (k + j)).getD Value.vNull
              else col.getD p Value.vNull)) ∧
        (∀ p, p ∉ positions → newCol.get? p = col.get? p) := by
  intro positions
  induction positions with
  | nil =>
      intro k col _ _
      refine ⟨col, rfl, rfl, ?_, fun p _ => rfl⟩
      intro j p h
      simp at h
  | cons p rest ih =>
      intro k col hnodup hbound
      have hp : p < col.length := hbound p (List.mem_cons_self _ _)
      have hpnin : p ∉ rest := (List.nodup_cons.mp hnodup).1
      have hrestnd : rest.Nodup := (List.nodup_cons.mp hnodup).2
      obtain ⟨v, hcv⟩ := chooseValue_isSome vals hv k
      have hold : col.get? p = some (col.get ⟨p, hp⟩) := List.get?_eq_get hp
      set old := col.get ⟨p, hp⟩ with hold_def
      set wcond := overwrite || isna old with hw
      set col' := if wcond then col.set p v else col with hcol'
      have hlen' : col'.length = col.length := by
        rw [hcol']
        by_cases hc : wcond
        · rw [if_pos hc, List.length_set]
        · rw [if_neg hc]
      have hstep : insertStep overwrite vals col (k, p) = Except.ok col' := by
        unfold insertStep insertAt
        rw [hcv]
        show (match col.get? p with
          | none => Except.error "IndexError"
          | some old => if overwrite || isna old then Except.ok (col.set p v)
              else Except.ok col) = Except.ok col'
        rw [hold]
        by_cases hc : wcond
        · rw [hcol', if_pos hc]
          show (if wcond then _ else _) = _
          rw [if_pos hc]
        · rw [hcol', if_neg hc]
          show (if wcond then _ else _) = _
          rw [if_neg hc]
      have hbound' : ∀ q ∈ rest, q < col'.length := fun q hq =>
        hlen' ▸ hbound q (List.mem_cons_of_mem p hq)
      obtain ⟨newCol, hfold, hlen, hwrite, hkeep⟩ := ih (k + 1) col' hrestnd hbound'
      have hget'_ne : ∀ q, q ≠ p → col'.get? q = col.get? q := by
        intro q hq
        rw [hcol']
        by_cases hc : wcond
        · rw [if_pos hc]
          exact List.get?_set_ne v col (Ne.symm hq)
        · rw [if_neg hc]
      have hgetD'_ne : ∀ q, q ≠ p →
          col'.getD q Value.vNull = col.getD q Value.vNull := by
        intro q hq
        show (col'.get? q).getD Value.vNull = (col.get? q).getD Value.vNull
        rw [hget'_ne q hq]
      refine ⟨newCol, ?_, by rw [hlen, hlen'], ?_, ?_⟩
      · show ((k, p) :: List.enumFrom (k + 1) rest).foldlM
            (insertStep overwrite vals) col = Except.ok newCol
        rw [List.foldlM_cons, hstep]
        exact hfold
      · intro j q hq
        match j, hq with
        | 0, hq =>
            have hpq : p = q := Option.some.inj hq
            subst hpq
            have hgd : col.getD p Value.vNull = old := by
              show (col.get? p).getD Value.vNull = old
              rw [hold]
              rfl
            rw [hkeep p hpnin, Nat.add_zero, hcv, hgd]
            by_cases hc : wcond
            · have h1 : col'.get? p = some v := by
                rw [hcol', if_pos hc]
                exact List.get?_set_eq_of_lt v hp
              rw [h1]
              rw [hw] at hc
              rw [if_pos hc]
              rfl
            · have h1 : col'.get? p = some old := by
                rw [hcol', if_neg hc]
                exact hold
              rw [h1]
              rw [hw] at hc
              rw [if_neg hc]
        | Nat.succ j', hq =>
            have hq' : rest.get? j' = some q := hq
            have hqmem : q ∈ rest := List.get?_mem hq'
            have hqp : q ≠ p := fun h => hpnin (h ▸ hqmem)
            have := hwrite j' q hq'
            rw [hgetD'_ne q hqp] at this
            have harith : k + 1 + j' = k + (j' + 1) := by omega
            rw [harith] at this
            exact this
      · intro q hq
        have hqrest : q ∉ rest := fun h => hq (List.mem_cons_of_mem p h)
        have hqp : q ≠ p := fun h => hq (h ▸ List.mem_cons_self p rest)
        rw [hkeep q hqrest, hget'_ne q hqp]

/-- C3: in the insert phase a value is written at a target position iff
`overwrite_existing` is true or the current cell there is null (`pd.isna`,
the model of the spec's "null/empty" cell); positions where this
condition fails, and positions not targeted at all, retain their prior
value; in particular insert column `[null, 99, null]`, values `[20, 30]`
at positions `[1, 2]` with `overwriteExisting = false` keeps `99` at
position 1 and writes `30` at position 2. -/
theorem claim_C3_insert_overwrite_policy :
    (∀ (overwrite : Bool) (vals col : List Value) (positions : List Nat),
      vals ≠ [] → positions.Nodup → (∀ p ∈ positions, p < col.length) →
      ∃ newCol, insertLoop overwrite vals col positions = Except.ok newCol ∧
        (∀ j p, positions.get? j = some p →
          newCol.get? p =
            some (if overwrite || isna (col.getD p Value.vNull)
              then (chooseValue vals j).getD Value.vNull
              else col.getD p Value.vNull)) ∧
        (∀ p, p ∉ positions → newCol.get? p = col.get? p)) ∧
    insertLoop false [Value.vInt 20, Value.vInt 30]
        [Value.vNull, Value.vInt 99, Value.vNull] [1, 2] =
      Except.ok [Value.vNull, Value.vInt 99, Value.vInt 30] := by
  constructor
  · intro overwrite vals col positions hv hnd hb
    obtain ⟨newCol, h1, _, h3, h4⟩ :=
      insertLoop_enumFrom_char overwrite vals hv positions 0 col hnd hb
    refine ⟨newCol, h1, ?_, h4⟩
    intro j p hp
    have h := h3 j p hp
    rw [Nat.zero_add] at h
    exact h
  · rfl

/-- Witness for C3 on the spec's overwrite example. -/
theorem claim_C3_insert_overwrite_policy_witness :
    ∃ newCol, insertLoop false [Value.vInt 20, Value.vInt 30]
        [Value.vNull, Value.vInt 99, Value.vNull] [1, 2] =
        Except.ok newCol ∧
      newCol.get? 1 = some (Value.vInt 99) ∧
      newCol.get? 2 = some (Value.vInt 30) ∧
      newCol.get? 0 = some Value.vNull := by
  obtain ⟨newCol, h1, h3, h4⟩ :=
    claim_C3_insert_overwrite_policy.1 false [Value.vInt 20, Value.vInt 30]
      [Value.vNull, Value.vInt 99, Value.vNull] [1, 2]
      (by decide) (by decide) (by decide)
  refine ⟨newCol, h1, ?_, ?_, ?_⟩
  · exact (h3 0 1 rfl).trans (by decide)
  · exact (h3 1 2 rfl).trans (by decide)
  · exact (h4 0 (by decide)).trans rfl

/-- C4: when the extracted values run short of the target positions,
every position at an index at or beyond the extracted-value count
receives the **last** extracted value (still subject to the overwrite
policy); e.g. values `[20]` with two target positions writes `20` to
both. -/
theorem claim_C4_shortfall_repeats_last :
    (∀ (overwrite : Bool) (vals col : List Value) (positions : List Nat)
       (hv : vals ≠ []),
      positions.Nodup → (∀ p ∈ positions, p < col.length) →
      ∀ j p, vals.length ≤ j → positions.get? j = some p →
      ∃ newCol, insertLoop overwrite vals col positions = Except.ok newCol ∧
        newCol.get? p =
          some (if overwrite || isna (col.getD p Value.vNull)
            then vals.getLast hv
            else col.getD p Value.vNull)) ∧
    insertLoop true [Value.vInt 20] [Value.vNull, Value.vNull] [0, 1] =
      Except.ok [Value.vInt 20, Value.vInt 20] := by
  constructor
  · intro overwrite vals col positions hv hnd hb j p hj hp
    obtain ⟨newCol, h1, _, h3, _⟩ :=
      insertLoop_enumFrom_char overwrite vals hv positions 0 col hnd hb
    refine ⟨newCol, h1, ?_⟩
    have h := h3 j p hp
    rw [Nat.zero_add] at h
    have hcv : chooseValue vals j = some (vals.getLast hv) := by
      unfold chooseValue
      rw [if_neg (by omega)]
      exact List.getLast?_eq_getLast vals hv
    rw [hcv] at h
    exact h
  · rfl

/-- Witness for C4 on the spec's shortfall example. -/
theorem claim_C4_shortfall_repeats_last_witness :
    ∃ newCol, insertLoop true [Value.vInt 20] [Value.vNull, Value.vNull]
        [0, 1] = Except.ok newCol ∧
      newCol.get? 1 = some (Value.vInt 20) := by
  obtain ⟨newCol, h1, h2⟩ :=
    claim_C4_shortfall_repeats_last.1 true [Value.vInt 20]
      [Value.vNull, Value.vNull] [0, 1]
      (by decide) (by decide) (by decide) 1 1 (by decide) rfl
  exact ⟨newCol, h1, h2.trans (by decide)⟩

/-! ## Claims C6 / C7 / C10: engine control flow -/

/-- C6: if extraction yields zero values, or location yields zero target
positions, `execute_mapping` returns the target tables unchanged and
raises nothing. -/
theorem claim_C6_no_match_is_noop :
    ∀ (mapping : DataMapping) (source_data target_data : TableSet),
      (extractSourceValues mapping source_data = Except.ok [] →
        executeMapping mapping source_data target_data =
          Except.ok target_data) ∧
      (∀ vs, extractSourceValues mapping source_data = Except.ok vs →
        findTargetPositions mapping target_data = Except.ok [] →
        executeMapping mapping source_data target_data =
          Except.ok target_data) := by
  intro mapping source_data target_data
  constructor
  · intro h
    unfold executeMapping
    rw [h]
    rfl
  · intro vs h1 h2
    unfold executeMapping
    rw [h1]
    show (if vs.isEmpty then Except.ok target_data
      else findTargetPositions mapping target_data >>= _) = _
    by_cases hvs : vs.isEmpty
    · rw [if_pos hvs]
    · rw [if_neg hvs, h2]
      rfl

/-- Concrete demo tables: the spec's end-to-end example (source columns
A-D, match column B, value column C; target columns A-D). -/
def demoSource : Table :=
  [[Value.vStr "a", Value.vStr "b", Value.vStr "c", Value.vStr "d"],
   [Value.vStr "201 main", Value.vStr "202 main", Value.vStr "202 main",
    Value.vStr "203 main"],
   [Value.vInt 10, Value.vInt 20, Value.vInt 30, Value.vInt 40]]

def demoTarget : Table :=
  [[Value.vStr "201 main", Value.vStr "202 main", Value.vStr "202 main"],
   [Value.vNull, Value.vNull, Value.vNull],
   [Value.vNull, Value.vNull, Value.vNull],
   [Value.vNull, Value.vNull, Value.vNull]]

/-- Whole-column coordinate. -/
def colCoord (s : String) : ExcelCoordinate :=
  { column := s, coord_type := "column" }

def demoMapping : DataMapping :=
  { source_file := "s", source_match_coordinate := colCoord "B",
    source_match_value := Value.vStr "202 main",
    source_value_coordinate := colCoord "C",
    target_file := "t", target_match_coordinate := colCoord "A",
    target_match_value := Value.vStr "202 main",
    target_insert_coordinate := colCoord "D" }

/-- Witness for C6: a source value that matches nothing, and a target
value that matches nothing, both leave the target tables untouched. -/
theorem claim_C6_no_match_is_noop_witness :
    executeMapping { demoMapping with source_match_value := Value.vStr "nope" }
      [("s", demoSource)] [("t", demoTarget)] =
      Except.ok [("t", demoTarget)] ∧
    executeMapping { demoMapping with target_match_value := Value.vStr "nope" }
      [("s", demoSource)] [("t", demoTarget)] =
      Except.ok [("t", demoTarget)] :=
  ⟨(claim_C6_no_match_is_noop _ _ _).1 rfl,
   (claim_C6_no_match_is_noop _ _ _).2 [Value.vInt 20, Value.vInt 30] rfl rfl⟩

/-- C7: `execute_multiple_mappings` folds the rules in order over the
running target tables; a failing rule is skipped without propagating and
the remaining rules run against the tables exactly as they stood before
it, while a successful rule passes its updated tables on. -/
theorem claim_C7_failing_rule_skipped :
    ∀ (m : DataMapping) (ms : List DataMapping) (src tgt : TableSet),
      (∀ e, executeMapping m src tgt = Except.error e →
        executeMultipleMappings (m :: ms) src tgt =
          executeMultipleMappings ms src tgt) ∧
      (∀ t, executeMapping m src tgt = Except.ok t →
        executeMultipleMappings (m :: ms) src tgt =
          executeMultipleMappings ms src t) := by
  intro m ms src tgt
  constructor
  · intro e h
    unfold executeMultipleMappings
    rw [List.foldl_cons, h]
  · intro t h
    unfold executeMultipleMappings
    rw [List.foldl_cons, h]

/-- Witness for C7: a rule whose source file is missing raises; it is
skipped and the fold continues from the unchanged tables. -/
theorem claim_C7_failing_rule_skipped_witness :
    executeMultipleMappings
        [{ demoMapping with source_file := "missing" }, demoMapping]
        [("s", demoSource)] [("t", demoTarget)] =
      executeMultipleMappings [demoMapping]
        [("s", demoSource)] [("t", demoTarget)] :=
  (claim_C7_failing_rule_skipped _ _ _ _).1 "源文件未找到" rfl

/-- Two-column source/target sets exercising the empty-column
coordinate. -/
def src10 : Table := [[Value.vStr "k"], [Value.vInt 7]]

def tgt10 : Table :=
  [[Value.vStr "x", Value.vStr "y"], [Value.vStr "x", Value.vNull]]

def emptyColMapping : DataMapping :=
  { source_file := "s", source_match_coordinate := colCoord "",
    source_match_value := Value.vInt 7,
    source_value_coordinate := colCoord "",
    target_file := "t", target_match_coordinate := colCoord "",
    target_match_value := Value.vStr "x",
    target_insert_coordinate := colCoord "" }

/-- C10: the engine's column-bounds checks only reject indices `≥` the
column count, never negative ones.  An empty column string resolves to
index `-1` (for both whole-column and single-cell coordinates), passes
`validate_mapping` and every phase's bounds check, and `iloc`-style
indexing silently addresses the table's **last** column: on the concrete
two-column tables the engine extracts from and inserts into the last
column without any range error. -/
theorem claim_C10_negative_index_addresses_last_column :
    (∀ df : Table, df ≠ [] → pyGetCol df (-1) = df.getLast?) ∧
    column_to_index "" = -1 ∧
    getColumnIndex (colCoord "") = Except.ok (-1) ∧
    getColumnIndex { column := "", row := 5, coord_type := "single" } =
      Except.ok (-1) ∧
    validateMapping emptyColMapping [("s", src10)] [("t", tgt10)] = [] ∧
    extractSourceValues emptyColMapping [("s", src10)] =
      Except.ok [Value.vInt 7] ∧
    executeMapping emptyColMapping [("s", src10)] [("t", tgt10)] =
      Except.ok [("t",
        [[Value.vStr "x", Value.vStr "y"], [Value.vInt 7, Value.vNull]])] := by
  refine ⟨?_, rfl, rfl, rfl, rfl, rfl, rfl⟩
  intro df h
  unfold pyGetCol pyIdx
  have hlen : 1 ≤ df.length := List.length_pos.mpr h
  rw [if_neg (by omega), if_pos (by simpa using hlen)]
  show df.get? (df.length - 1) = df.getLast?
  exact (List.getLast?_eq_get? df).symm

/-- Witness for C10's universal part at a one-column table. -/
theorem claim_C10_negative_index_addresses_last_column_witness :
    pyGetCol [[Value.vInt 1]] (-1) = some [Value.vInt 1] :=
  (claim_C10_negative_index_addresses_last_column.1 [[Value.vInt 1]]
    (by decide)).trans (by decide)

end ExcelFilterPro
